import Mathlib

/-!
# Verification of `GalaxyDock2_HEME/script/batch_docking.py`

A shallow embedding of the batch docking orchestration script:
the mol2 record splitter (`split_mol2_file`), the per-molecule job
runner (`run_single_docking`), the output-directory pruning
(`cleanup_output_dir`), the result aggregation
(`write_summary_csv` / `write_summary_mol2`), and the collection
loop and exit paths of `main`.

Machine floats in the Python source are modelled as exact rationals
(`ℚ`); the filesystem is modelled as explicit lists of lines,
directory entries, or `(name, content)` writes; subprocess execution
and other external effects are modelled by an environment record
describing what the external world does.
-/

namespace BatchDocking

/-- The `DockingResult` dataclass of the source (lines 39-50):
one molecule's docking outcome, six energy terms, a success flag and
the best-pose mol2 blob. Energies are modelled as exact rationals. -/
structure DockingResult where
  mol_name : String
  energy : ℚ
  atdk_e : ℚ
  int_e : ℚ
  ds_e : ℚ
  hm_e : ℚ
  plp : ℚ
  success : Bool
  mol2_content : String := ""
deriving DecidableEq, Repr

/-- The failure `DockingResult` constructed on every failure path of
`run_single_docking` (lines 199-208, 211-220, 223-232): all energy
terms `0.0`, `success=False`, empty blob. -/
def failureResult (mol_name : String) : DockingResult :=
  { mol_name := mol_name, energy := 0, atdk_e := 0, int_e := 0,
    ds_e := 0, hm_e := 0, plp := 0, success := false, mol2_content := "" }

/-! ## Python primitives used by the script

The Python string operations are modelled on the character lists
underlying Lean strings (`String.data`), with structurally recursive
functions. -/

/-- Strip leading and trailing whitespace (Python `str.strip()`). -/
def charsTrim (l : List Char) : List Char :=
  ((l.dropWhile Char.isWhitespace).reverse.dropWhile Char.isWhitespace).reverse

/-- Split a character list at every separator character (separators
are consumed; empty pieces are kept, as in Python `str.split(sep)`).
The first argument of the recursion is the reversed current piece. -/
def splitCharsGo (p : Char → Bool) : List Char → List Char → List (List Char)
  | acc, [] => [acc.reverse]
  | acc, c :: cs =>
      if p c then acc.reverse :: splitCharsGo p [] cs
      else splitCharsGo p (c :: acc) cs

/-- Prefix test: `listPrefix pre l` is true iff `pre` is a prefix of `l`
(Python `str.startswith`). -/
def listPrefix : List Char → List Char → Bool
  | [], _ => true
  | _ :: _, [] => false
  | a :: as, b :: bs => a == b && listPrefix as bs

/-- The numeric value of a non-empty all-digit character list;
`none` otherwise. -/
def digitsVal? (l : List Char) : Option Nat :=
  if l ≠ [] ∧ l.all Char.isDigit then
    some (l.foldl (fun a c => a * 10 + (c.toNat - 48)) 0)
  else none

/-- Model of Python's `str.split()` with no argument (line 178):
split on whitespace, discarding empty tokens. -/
def pySplitWs (s : String) : List String :=
  ((splitCharsGo Char.isWhitespace [] s.data).map String.mk).filter
    (fun t => t != "")

/-- Decimal mantissa `ddd`, `ddd.ddd`, `ddd.` or `.ddd`. -/
def pyMantissaChars (m : List Char) : Option ℚ :=
  match splitCharsGo (fun c => c == '.') [] m with
  | [i] => (digitsVal? i).map (fun n => (n : ℚ))
  | [i, f] =>
      if i.isEmpty && f.isEmpty then none
      else
        match (if i.isEmpty then some 0 else digitsVal? i),
              (if f.isEmpty then some 0 else digitsVal? f) with
        | some ip, some fp => some ((ip : ℚ) + (fp : ℚ) / (10 : ℚ) ^ f.length)
        | _, _ => none
  | _ => none

/-- Model of Python's builtin `float(str)` on finite decimal literals
(optional surrounding whitespace, optional sign, decimal mantissa,
optional `e`/`E` exponent), returning `none` where `float()` raises
`ValueError` — in particular on the sentinel token `"*"`, which is not
numeric.  Values are exact rationals. -/
def pyFloat (s : String) : Option ℚ :=
  let t := charsTrim s.data
  let sgn : ℚ := if t.head? == some '-' then -1 else 1
  let body := if t.head? == some '-' || t.head? == some '+' then t.tail else t
  match splitCharsGo (fun c => c == 'e' || c == 'E') [] body with
  | [m] => (pyMantissaChars m).map (fun v => sgn * v)
  | [m, ex] =>
      let esgn : ℤ := if ex.head? == some '-' then -1 else 1
      let edig := if ex.head? == some '-' || ex.head? == some '+' then ex.tail else ex
      match pyMantissaChars m, digitsVal? edig with
      | some mv, some en => some (sgn * mv * (10 : ℚ) ^ (esgn * (en : ℤ)))
      | _, _ => none
  | _ => none

/-- Model of Python's `str.endswith('\n')` (line 306). -/
def pyEndsWithNl (s : String) : Bool :=
  s.data.getLast? == some '\n'

/-! ## Job Runner: `run_single_docking` (lines 105-232) -/

/-- What the external docking subprocess call does: expire the 600 s
timeout (`sp.TimeoutExpired`), raise some other exception inside the
`try` block, or complete normally. -/
inductive ProcResult where
  | timeout
  | raised (e : String)
  | completed
deriving DecidableEq, Repr

/-- The environment one `run_single_docking` call observes: whether
`mol_output_dir.mkdir` (line 134, *outside* the `try`) raises, what
the subprocess does, and the state of the two result files the runner
validates and parses. -/
structure DockEnv where
  mkdirError : Option String
  procResult : ProcResult
  eInfoExists : Bool
  mol2ResultExists : Bool
  eInfoLines : List String
  mol2ResultLines : List String
deriving DecidableEq, Repr

/-- Marker test `line.startswith('@<TRIPOS>MOLECULE')` (lines 73, 241). -/
def isMarker (line : String) : Bool :=
  listPrefix "@<TRIPOS>MOLECULE".data line.data

/-- Loop body of `read_first_mol2_entry` (lines 235-248): the flag
`started` is set at the first marker; every line from the first marker
up to (excluding) the second marker is collected; the loop breaks at
the second marker. -/
def readFirstGo : Bool → List String → List String
  | _, [] => []
  | started, l :: ls =>
      if isMarker l then
        if started then []
        else l :: readFirstGo true ls
      else if started then l :: readFirstGo started ls
      else readFirstGo started ls

/-- Function `read_first_mol2_entry` (lines 235-248) on the pose file's lines. -/
def read_first_mol2_entry (lines : List String) : String :=
  String.join (readFirstGo false lines)

/-- The six `float(parts[i])` calls, `i = 1..6`, evaluated left to
right as in the `DockingResult(...)` constructor call (lines 188-193);
the first `ValueError` aborts (models the raised exception). -/
def parseScores (parts : List String) : Option (ℚ × ℚ × ℚ × ℚ × ℚ × ℚ) := do
  let e1 ← pyFloat (parts.getD 1 "")
  let e2 ← pyFloat (parts.getD 2 "")
  let e3 ← pyFloat (parts.getD 3 "")
  let e4 ← pyFloat (parts.getD 4 "")
  let e5 ← pyFloat (parts.getD 5 "")
  let e6 ← pyFloat (parts.getD 6 "")
  pure (e1, e2, e3, e4, e5, e6)

/-- Function `run_single_docking` (lines 105-232).  `Except.error` models an
exception escaping to the caller; `Except.ok` a returned
`DockingResult`.  The `mkdir` of line 134 precedes the `try` of line
159, so an exception there propagates; everything inside the `try`
(timeout, subprocess errors, validation fallthrough, `float` parse
errors) produces a returned failure result. -/
def run_single_docking (mol_name : String) (env : DockEnv) :
    Except String DockingResult :=
  match env.mkdirError with
  | some e => Except.error e
  | none =>
    match env.procResult with
    | ProcResult.timeout => Except.ok (failureResult mol_name)
    | ProcResult.raised _ => Except.ok (failureResult mol_name)
    | ProcResult.completed =>
        if env.eInfoExists && env.mol2ResultExists then
          if 4 ≤ env.eInfoLines.length then
            let parts := pySplitWs (env.eInfoLines.getD 3 "")
            if 7 ≤ parts.length then
              match parseScores parts with
              | some (e1, e2, e3, e4, e5, e6) =>
                  Except.ok
                    { mol_name := mol_name, energy := e1, atdk_e := e2,
                      int_e := e3, ds_e := e4, hm_e := e5, plp := e6,
                      success := true,
                      mol2_content := read_first_mol2_entry env.mol2ResultLines }
              | none => Except.ok (failureResult mol_name)
            else Except.ok (failureResult mol_name)
          else Except.ok (failureResult mol_name)
        else Except.ok (failureResult mol_name)

/-! ## Record Splitter: `split_mol2_file` (lines 53-102) -/

/-- Name derivation for a record's second line (lines 88-93): strip,
replace `:`, `/` and space by `_` (single-character `str.replace`
calls, modelled as character maps); if the result is empty use
`mol_<count>` where `count` is the 1-based ordinal of the record. -/
def recDerivedName (count : Nat) (line : String) : String :=
  let raw := charsTrim line.data
  let nm := ((raw.map (fun c => if c == ':' then '_' else c)).map
      (fun c => if c == '/' then '_' else c)).map
      (fun c => if c == ' ' then '_' else c)
  if nm.isEmpty then "mol_" ++ toString count else String.mk nm

/-- The loop state of the `split_mol2_file` line loop: molecules
written so far (as `(name, record lines)` writes, in order), the
current record's accumulated lines, the current record's derived name
(Python `current_mol_name`, `none` for Python `None`), and
`mol_count`. -/
structure SplitState where
  molecules : List (String × List String)
  cur : List String
  curName : Option String
  count : Nat
deriving Repr

/-- The save step guarded by `if current_mol_lines and current_mol_name:`
(lines 75-79 and 96-100): append the pending record iff the line
buffer is non-empty and the name is neither `None` nor empty. -/
def flushCurrent (st : SplitState) : List (String × List String) :=
  match st.curName with
  | some name =>
      if st.cur.isEmpty || name == "" then st.molecules
      else st.molecules ++ [(name, st.cur)]
  | none => st.molecules

/-- One iteration of the `for line in f` loop (lines 72-93). -/
def splitStep (st : SplitState) (line : String) : SplitState :=
  if isMarker line then
    { molecules := flushCurrent st, cur := [line], curName := none,
      count := st.count + 1 }
  else if !st.cur.isEmpty then
    let cur := st.cur ++ [line]
    let curName :=
      if cur.length = 2 then some (recDerivedName st.count line)
      else st.curName
    { st with cur := cur, curName := curName }
  else st

/-- Function `split_mol2_file` (lines 53-102) as the list of `(name, record
lines)` file writes it performs, in order.  The file written for a
unit named `n` is `n ++ ".mol2"`; as the extension is constant we key
the filesystem by `n` itself. -/
def split_mol2_file (lines : List String) : List (String × List String) :=
  flushCurrent (lines.foldl splitStep ⟨[], [], none, 0⟩)

/-- Last-write-wins filesystem view of a sequence of `open(.., 'w')`
writes: the content of file `n` is the last write to `n`, if any. -/
def fsAfter (writes : List (String × List String)) (n : String) :
    Option (List String) :=
  (writes.reverse.find? (fun w => w.1 == n)).map Prod.snd

/-- A well-formed record of the container format: a start-of-record
marker line, a second (name) line, and further non-marker body lines
(§6: "each beginning with a literal start-of-record marker line, whose
second line is the record's display identifier"). -/
def wfRecord (r : List String) : Prop :=
  ∃ m nm rest, r = m :: nm :: rest ∧ isMarker m = true ∧
    isMarker nm = false ∧ ∀ l ∈ rest, isMarker l = false

/-- The unit name the splitter derives for record `r` with 1-based
ordinal `k`. -/
def recName1 (r : List String) (k : Nat) : String :=
  match r with
  | _ :: nm :: _ => recDerivedName k nm
  | _ => ""

/-- The expected `(name, record)` unit listing for consecutive records
when `k` records precede them. -/
def unitsFrom : Nat → List (List String) → List (String × List String)
  | _, [] => []
  | k, r :: rs => (recName1 r (k + 1), r) :: unitsFrom (k + 1) rs

/-! ## Workspace pruning: `cleanup_output_dir` (lines 251-257) -/

/-- One entry of the per-molecule output directory as seen by
`output_dir.iterdir()`: its name and whether `item.is_file()`. -/
structure DirEntry where
  name : String
  file : Bool
deriving DecidableEq, Repr

/-- The retention allowlist `keep_files` (line 253). -/
def keep_files : List String :=
  ["box.pdb", "contact.pdb", "GD2_HEME_fb.E.info", "GD2_HEME_fb.mol2"]

/-- Function `cleanup_output_dir` (lines 251-257): unlink every *file* whose
name is not in the allowlist; entries that are not files (e.g.
subdirectories) are not touched. -/
def cleanup_output_dir (entries : List DirEntry) : List DirEntry :=
  entries.filter (fun item => !(item.file && !(keep_files.contains item.name)))

/-! ## Result Aggregator (lines 260-307) -/

/-- The ranking relation used by `sorted(..., key=lambda x: x.energy)`. -/
def energyLE (a b : DockingResult) : Prop :=
  a.energy ≤ b.energy

instance : DecidableRel energyLE := fun a b =>
  inferInstanceAs (Decidable (a.energy ≤ b.energy))

instance : IsTotal DockingResult energyLE :=
  ⟨fun a b => le_total a.energy b.energy⟩

instance : IsTrans DockingResult energyLE :=
  ⟨fun _ _ _ h1 h2 => le_trans h1 h2⟩

/-- Python's `sorted(rs, key=lambda x: x.energy)` (lines 263-266,
298-301): a stable sort ascending by energy, modelled by insertion
sort (which is stable for `energyLE`). -/
def sortByEnergy (l : List DockingResult) : List DockingResult :=
  List.insertionSort energyLE l

/-- The comprehension `[r for r in results if r.success]` (line 264). -/
def successResults (results : List DockingResult) : List DockingResult :=
  results.filter (fun r => r.success)

/-- Round-half-to-even to an integer, the rounding used by Python's
fixed-point float formatting, transplanted to exact rationals. -/
def roundHalfEven (q : ℚ) : ℤ :=
  let f := q.floor
  let r := q - (f : ℚ)
  if r < 1 / 2 then f
  else if 1 / 2 < r then f + 1
  else if f % 2 = 0 then f else f + 1

/-- Three decimal digits, zero padded. -/
def pad3 (n : Nat) : String :=
  String.mk [Char.ofNat (48 + n / 100 % 10), Char.ofNat (48 + n / 10 % 10),
    Char.ofNat (48 + n % 10)]

/-- Model of the f-string `f"{q:.3f}"` (lines 278-283) on exact
rationals: round `q * 1000` half-to-even and render with exactly three
digits after the decimal point.  (Negative zero renders as `0.000`.) -/
def format3 (q : ℚ) : String :=
  let n := roundHalfEven (q * 1000)
  let sign := if n < 0 then "-" else ""
  let a := n.natAbs
  sign ++ toString (a / 1000) ++ "." ++ pad3 (a % 1000)

/-- One CSV data row (lines 274-284): 1-based rank, name, six energy
fields at three decimal places. -/
def csvRow (rank : Nat) (r : DockingResult) : List String :=
  [toString rank, r.mol_name, format3 r.energy, format3 r.atdk_e,
    format3 r.int_e, format3 r.ds_e, format3 r.hm_e, format3 r.plp]

/-- The `enumerate(sorted_results, 1)` loop (line 274). -/
def csvRows : Nat → List DockingResult → List (List String)
  | _, [] => []
  | rank, r :: rs => csvRow rank r :: csvRows (rank + 1) rs

/-- The header row (lines 270-272). -/
def csvHeader : List String :=
  ["Rank", "Molecule", "Energy", "ATDK_E", "INT_E", "DS_E", "HM_E", "PLP"]

/-- The data rows of `write_summary_csv` (lines 260-284): successes
sorted ascending by energy (stable), enumerated from rank 1. -/
def write_summary_csv_rows (results : List DockingResult) : List (List String) :=
  csvRows 1 (sortByEnergy (successResults results))

/-- The failed-molecule list of `write_summary_csv` (lines 287-292). -/
def failed_molecules (results : List DockingResult) : List String :=
  (results.filter (fun r => !r.success)).map (fun r => r.mol_name)

/-- The entries `write_summary_mol2` writes (lines 298-301):
successes with a non-empty (truthy) `mol2_content`, sorted ascending
by energy. -/
def summaryMol2Entries (results : List DockingResult) : List DockingResult :=
  sortByEnergy (results.filter (fun r => r.success && r.mol2_content != ""))

/-- The bytes one entry contributes (lines 304-307): the blob, plus a
newline iff the blob does not already end with one. -/
def mol2Piece (c : String) : String :=
  if pyEndsWithNl c then c else c ++ "\n"

/-- The per-entry byte blocks of the consolidated mol2 file. -/
def summaryMol2Pieces (results : List DockingResult) : List String :=
  (summaryMol2Entries results).map (fun r => mol2Piece r.mol2_content)

/-- Function `write_summary_mol2` (lines 295-307): the consolidated file's
content. -/
def write_summary_mol2 (results : List DockingResult) : String :=
  String.join (summaryMol2Pieces results)

/-! ## Scheduler collection loop and `main` (lines 315-539) -/

/-- One event of the `as_completed` loop (lines 483-510): either a
future's returned `DockingResult`, or `future.result()` re-raising an
exception for the named molecule. -/
inductive Arrival where
  | ok (r : DockingResult)
  | exn (mol_name : String) (e : String)
deriving DecidableEq, Repr

/-- The accumulator of the collection loop: `results`, `completed`,
`failed` (lines 457-459). -/
structure CollectState where
  results : List DockingResult
  completed : Nat
  failed : Nat
deriving DecidableEq, Repr

/-- One iteration of the `as_completed` loop (lines 483-510): a
returned result is appended (and counted failed iff not successful);
an exception is converted to an appended failure result and counted
failed. -/
def collectStep (st : CollectState) (a : Arrival) : CollectState :=
  match a with
  | Arrival.ok r =>
      { results := st.results ++ [r], completed := st.completed + 1,
        failed := if r.success then st.failed else st.failed + 1 }
  | Arrival.exn mol_name _ =>
      { results := st.results ++ [failureResult mol_name],
        completed := st.completed + 1, failed := st.failed + 1 }

/-- The whole collection loop over the arrival stream. -/
def collectLoop (arrivals : List Arrival) : CollectState :=
  arrivals.foldl collectStep ⟨[], 0, 0⟩

/-- The `successful` count of line 526. -/
def successfulCount (st : CollectState) : Nat :=
  (st.results.filter (fun r => r.success)).length

/-- The environment `main` observes: whether `--conda_base` was given,
whether a conda installation is auto-detectable (lines 407-421),
whether the two required input files exist (lines 424-430), the ligand
container's lines, and the stream of job outcomes. -/
structure MainEnv where
  conda_base_given : Bool
  conda_detected : Bool
  protein_exists : Bool
  ligand_exists : Bool
  ligand_lines : List String
  arrivals : List Arrival
deriving Repr

/-- How the orchestrator process ends: a `sys.exit(code)` / normal
return (normal completion is process exit 0), or an uncaught exception
(a traceback; the interpreter then exits non-zero). -/
inductive MainOutcome where
  | exited (code : Nat)
  | uncaught (e : String)
deriving DecidableEq, Repr

/-- The exit-relevant skeleton of `main` (lines 315-539): conda
detection and input validation abort with exit 1 before any dispatch;
afterwards the batch runs to completion and `main` returns normally
(process exit 0) — except that the success-rate statistic of line 533,
`successful/len(molecules)*100`, raises an uncaught
`ZeroDivisionError` when the container produced zero molecules.
Individual job outcomes (`env.arrivals`) never influence the exit
path. -/
def main_model (env : MainEnv) : MainOutcome :=
  if !env.conda_base_given && !env.conda_detected then MainOutcome.exited 1
  else if !env.protein_exists then MainOutcome.exited 1
  else if !env.ligand_exists then MainOutcome.exited 1
  else
    let molecules := split_mol2_file env.ligand_lines
    if molecules.length = 0 then MainOutcome.uncaught "ZeroDivisionError"
    else MainOutcome.exited 0

/-! ## Helper lemmas -/

/-- Python's `float("*")` raises `ValueError`: the sentinel is not a
numeric literal. -/
theorem pyFloat_star : pyFloat "*" = none := by decide

/-- A successful score parse forces every one of the six parsed
columns (`parts[1]`..`parts[6]`) to be numeric; contrapositively, a
`ValueError` on any column aborts the whole `DockingResult(...)`
constructor call. -/
theorem parseScores_some_fields (parts : List String)
    (t : ℚ × ℚ × ℚ × ℚ × ℚ × ℚ) (h : parseScores parts = some t) :
    ∀ j, 1 ≤ j → j ≤ 6 → (pyFloat (parts.getD j "")).isSome = true := by
  unfold parseScores at h
  simp only [bind, Option.bind_eq_some] at h
  obtain ⟨a1, hp1, a2, hp2, a3, hp3, a4, hp4, a5, hp5, a6, hp6, -⟩ := h
  intro j h1 h6
  interval_cases j <;>
    simp only [List.getD_eq_getElem?_getD] at hp1 hp2 hp3 hp4 hp5 hp6 ⊢ <;>
    simp [hp1, hp2, hp3, hp4, hp5, hp6]

end BatchDocking

namespace BatchDocking

/-! ## Claim theorems: Job Runner -/

/-- Claim C1, counterexample: on a concrete energy table whose
best-pose line holds the sentinel `*` in a score field, the Job Runner
does *not* produce a Success outcome: `float('*')` raises, the
exception is caught, and the returned outcome has `success = false`.
This refutes the claim that the sentinel is parsed as a very large
finite number producing a Success. -/
theorem claim1_star_counterexample :
    (pySplitWs ((["h1\n", "h2\n", "h3\n",
        "1 * -5.1 -1.2 -0.8 -0.4 0.1\n"] : List String).getD 3 "")).getD 1 ""
      = "*" ∧
    run_single_docking "mol1"
      { mkdirError := none, procResult := ProcResult.completed,
        eInfoExists := true, mol2ResultExists := true,
        eInfoLines := ["h1\n", "h2\n", "h3\n", "1 * -5.1 -1.2 -0.8 -0.4 0.1\n"],
        mol2ResultLines := [] }
      = Except.ok (failureResult "mol1") ∧
    (failureResult "mol1").success = false := by
  exact ⟨rfl, rfl, rfl⟩

/-- Claim C1, amended: whenever *any* of the six best-pose score
fields (`parts[1]`..`parts[6]`) holds the sentinel `*`, Python's
`float` raises, the exception is caught, and the Job Runner returns a
failure outcome (`success = false`) — not a Success and not a
propagated parse error. -/
theorem claim1_star_is_failure (mol_name : String) (env : DockEnv)
    (j : Nat)
    (hm : env.mkdirError = none) (hp : env.procResult = ProcResult.completed)
    (he : env.eInfoExists = true) (hg : env.mol2ResultExists = true)
    (hl : 4 ≤ env.eInfoLines.length)
    (h7 : 7 ≤ (pySplitWs (env.eInfoLines.getD 3 "")).length)
    (hj1 : 1 ≤ j) (hj6 : j ≤ 6)
    (hstar : (pySplitWs (env.eInfoLines.getD 3 "")).getD j "" = "*") :
    run_single_docking mol_name env = Except.ok (failureResult mol_name) ∧
    (failureResult mol_name).success = false := by
  refine ⟨?_, rfl⟩
  have hps : parseScores (pySplitWs (env.eInfoLines.getD 3 "")) = none := by
    cases hps2 : parseScores (pySplitWs (env.eInfoLines.getD 3 "")) with
    | none => rfl
    | some t =>
        have hsome := parseScores_some_fields _ t hps2 j hj1 hj6
        rw [hstar, pyFloat_star] at hsome
        simp at hsome
  unfold run_single_docking
  rw [hm, hp, he, hg]
  simp only [Bool.and_self, if_true]
  rw [if_pos hl, if_pos h7, hps]

/-- Claim C1, witness, at a concrete environment whose sentinel sits
in the *second* score field (`parts[2]`), with a numeric first field. -/
theorem claim1_star_is_failure_witness :
    run_single_docking "molW"
      { mkdirError := none, procResult := ProcResult.completed,
        eInfoExists := true, mol2ResultExists := true,
        eInfoLines := ["a\n", "b\n", "c\n", "1 -7.0 * -1.2 -0.8 -0.4 0.1\n"],
        mol2ResultLines := [] }
      = Except.ok (failureResult "molW") :=
  (claim1_star_is_failure "molW"
    { mkdirError := none, procResult := ProcResult.completed,
      eInfoExists := true, mol2ResultExists := true,
      eInfoLines := ["a\n", "b\n", "c\n", "1 -7.0 * -1.2 -0.8 -0.4 0.1\n"],
      mol2ResultLines := [] }
    2 rfl rfl rfl rfl (by decide) (by decide) (by decide) (by decide)
    (by decide)).1

/-- Claim C3: if the external docking process hits the 600 s timeout
(`sp.TimeoutExpired`), the Job Runner returns a failure outcome
(`success = false`), never a Success, regardless of whatever partial
output the process wrote (the file state in `env` is arbitrary). -/
theorem claim3_timeout_is_failure (mol_name : String) (env : DockEnv)
    (hm : env.mkdirError = none) (ht : env.procResult = ProcResult.timeout) :
    run_single_docking mol_name env = Except.ok (failureResult mol_name) ∧
    (failureResult mol_name).success = false := by
  refine ⟨?_, rfl⟩
  unfold run_single_docking
  rw [hm, ht]

/-- Claim C3, witness: a timed-out job with a fully-populated output
directory (partial output present) is still reported as a failure. -/
theorem claim3_timeout_is_failure_witness :
    run_single_docking "molT"
      { mkdirError := none, procResult := ProcResult.timeout,
        eInfoExists := true, mol2ResultExists := true,
        eInfoLines := ["a\n", "b\n", "c\n", "1 -9.0 1.0 2.0 3.0 4.0 5.0\n"],
        mol2ResultLines := ["@<TRIPOS>MOLECULE\n", "m\n"] }
      = Except.ok (failureResult "molT") :=
  (claim3_timeout_is_failure "molT" _ rfl rfl).1

/-- Claim C4, counterexample: an exception raised by the directory
creation of line 134 — which sits *before* the `try` of line 159 —
propagates out of `run_single_docking` instead of being converted to a
failure outcome.  This refutes the claim that every exception,
including during directory creation, is caught. -/
theorem claim4_mkdir_exception_propagates :
    run_single_docking "mol1"
      { mkdirError := some "PermissionError", procResult := ProcResult.completed,
        eInfoExists := true, mol2ResultExists := true,
        eInfoLines := [], mol2ResultLines := [] }
      = Except.error "PermissionError" := rfl

/-- Claim C4, amended: provided the initial `mkdir` does not raise,
the Job Runner always returns a `DockingResult` and never propagates
an exception: every exception raised inside the `try` block
(subprocess invocation, artifact validation fallthrough, score
parsing) is caught and converted to a failure outcome. -/
theorem claim4_runner_returns_outcome (mol_name : String) (env : DockEnv)
    (hm : env.mkdirError = none) :
    (∃ r, run_single_docking mol_name env = Except.ok r) ∧
    (∀ e, env.procResult = ProcResult.raised e →
      run_single_docking mol_name env = Except.ok (failureResult mol_name)) := by
  constructor
  · unfold run_single_docking
    rw [hm]
    cases env.procResult with
    | timeout => exact ⟨_, rfl⟩
    | raised e => exact ⟨_, rfl⟩
    | completed =>
        dsimp only
        split
        · split
          · split
            · split
              · exact ⟨_, rfl⟩
              · exact ⟨_, rfl⟩
            · exact ⟨_, rfl⟩
          · exact ⟨_, rfl⟩
        · exact ⟨_, rfl⟩
  · intro e he
    unfold run_single_docking
    rw [hm, he]

/-- Claim C4, witness: a subprocess-layer exception inside the `try`
is converted to a failure outcome. -/
theorem claim4_runner_returns_outcome_witness :
    run_single_docking "molE"
      { mkdirError := none, procResult := ProcResult.raised "OSError",
        eInfoExists := false, mol2ResultExists := false,
        eInfoLines := [], mol2ResultLines := [] }
      = Except.ok (failureResult "molE") :=
  (claim4_runner_returns_outcome "molE" _ rfl).2 "OSError" rfl

/-! ## Claim theorems: collection loop and exit codes -/

/-- One `as_completed` iteration adds exactly one result, bumps
`completed` by one, and preserves `#successes + failed = #results`
shifted by one. -/
theorem collectStep_stats (st : CollectState) (a : Arrival) :
    (collectStep st a).results.length = st.results.length + 1 ∧
    (collectStep st a).completed = st.completed + 1 ∧
    successfulCount (collectStep st a) + (collectStep st a).failed
      = successfulCount st + st.failed + 1 := by
  cases a with
  | ok r =>
      cases hr : r.success <;>
        simp [collectStep, successfulCount, List.filter_append, hr] <;> omega
  | exn n e =>
      simp [collectStep, successfulCount, List.filter_append, failureResult]
      omega

/-- Invariant of the collection loop, for an arbitrary starting
accumulator. -/
theorem collectLoop_inv (arrivals : List Arrival) :
    ∀ st : CollectState,
    (List.foldl collectStep st arrivals).results.length
        = st.results.length + arrivals.length ∧
    (List.foldl collectStep st arrivals).completed
        = st.completed + arrivals.length ∧
    successfulCount (List.foldl collectStep st arrivals)
        + (List.foldl collectStep st arrivals).failed
      = successfulCount st + st.failed + arrivals.length := by
  induction arrivals with
  | nil => intro st; simp
  | cons a t ih =>
      intro st
      obtain ⟨h1, h2, h3⟩ := ih (collectStep st a)
      obtain ⟨s1, s2, s3⟩ := collectStep_stats st a
      refine ⟨?_, ?_, ?_⟩ <;> simp only [List.foldl_cons, List.length_cons] <;>
        omega

/-- Claim C2: if every WorkUnit produced by the Splitter yields exactly
one arrival event (a returned result or an exception converted to a
failure), then at finalization the reported success count plus the
failure count equals the number of WorkUnits, and exactly one
`DockingResult` was collected per unit. -/
theorem claim2_success_plus_failed (lines : List String)
    (arrivals : List Arrival)
    (h : arrivals.length = (split_mol2_file lines).length) :
    successfulCount (collectLoop arrivals) + (collectLoop arrivals).failed
        = (split_mol2_file lines).length ∧
    (collectLoop arrivals).results.length = (split_mol2_file lines).length ∧
    (collectLoop arrivals).completed = (split_mol2_file lines).length := by
  obtain ⟨h1, h2, h3⟩ := collectLoop_inv arrivals ⟨[], 0, 0⟩
  unfold collectLoop
  rw [← h]
  refine ⟨?_, ?_, ?_⟩
  · rw [h3]; simp [successfulCount]
  · rw [h1]; simp
  · rw [h2]; simp

/-- Claim C2, witness: a two-unit container with one success and one
worker exception: `1 + 1 = 2`. -/
theorem claim2_success_plus_failed_witness :
    successfulCount (collectLoop
        [Arrival.ok
            { mol_name := "a", energy := -5, atdk_e := 0, int_e := 0,
              ds_e := 0, hm_e := 0, plp := 0, success := true, mol2_content := "" },
          Arrival.exn "b" "BrokenProcessPool"])
      + (collectLoop
        [Arrival.ok
            { mol_name := "a", energy := -5, atdk_e := 0, int_e := 0,
              ds_e := 0, hm_e := 0, plp := 0, success := true, mol2_content := "" },
          Arrival.exn "b" "BrokenProcessPool"]).failed
      = (split_mol2_file ["@<TRIPOS>MOLECULE\n", "a\n", "x\n",
          "@<TRIPOS>MOLECULE\n", "b\n"]).length :=
  (claim2_success_plus_failed
    ["@<TRIPOS>MOLECULE\n", "a\n", "x\n", "@<TRIPOS>MOLECULE\n", "b\n"]
    [Arrival.ok
        { mol_name := "a", energy := -5, atdk_e := 0, int_e := 0,
          ds_e := 0, hm_e := 0, plp := 0, success := true, mol2_content := "" },
      Arrival.exn "b" "BrokenProcessPool"]
    (by decide)).1

/-- Claim C7, counterexample: with all inputs present and the
environment detected but a ligand container holding zero records,
`main` does *not* exit 0: the success-rate statistic divides by
`len(molecules) = 0` and raises an uncaught `ZeroDivisionError`.
This refutes the claim that the orchestrator exits 0 in every
non-input-error case, including the zero-record container. -/
theorem claim7_empty_container_counterexample :
    main_model
        { conda_base_given := true, conda_detected := true,
          protein_exists := true, ligand_exists := true,
          ligand_lines := [], arrivals := [] }
      = MainOutcome.uncaught "ZeroDivisionError" ∧
    main_model
        { conda_base_given := true, conda_detected := true,
          protein_exists := true, ligand_exists := true,
          ligand_lines := [], arrivals := [] }
      ≠ MainOutcome.exited 0 := by
  refine ⟨rfl, ?_⟩
  intro h
  exact absurd h (by decide)

/-- Claim C7, amended: `main` exits 1 when the docking environment is
undetectable or a required input file is missing; in every other case
in which the container holds at least one record it exits 0,
regardless of the individual job outcomes (`env.arrivals` is
universally quantified and never inspected by the exit path).  The
zero-record case instead dies with an uncaught `ZeroDivisionError`. -/
theorem claim7_exit_codes (env : MainEnv) :
    ((!env.conda_base_given && !env.conda_detected) = true ∨
        env.protein_exists = false ∨ env.ligand_exists = false →
      main_model env = MainOutcome.exited 1) ∧
    ((env.conda_base_given || env.conda_detected) = true →
      env.protein_exists = true → env.ligand_exists = true →
      (split_mol2_file env.ligand_lines).length ≠ 0 →
      main_model env = MainOutcome.exited 0) := by
  constructor
  · intro h
    unfold main_model
    rcases h with h | h | h
    · rw [if_pos h]
    · split
      · rfl
      · rw [h]
        simp
    · split
      · rfl
      · split
        · rfl
        · rw [h]
          simp
  · intro h1 h2 h3 h4
    have hc : (!env.conda_base_given && !env.conda_detected) = false := by
      cases hb : env.conda_base_given <;> cases hd : env.conda_detected <;>
        simp_all
    unfold main_model
    rw [hc, h2, h3]
    simp [h4]

/-- Claim C7, witness: a one-record container whose only job fails
still exits 0. -/
theorem claim7_exit_codes_witness :
    main_model
        { conda_base_given := false, conda_detected := true,
          protein_exists := true, ligand_exists := true,
          ligand_lines := ["@<TRIPOS>MOLECULE\n", "m\n"],
          arrivals := [Arrival.exn "m" "boom"] }
      = MainOutcome.exited 0 :=
  (claim7_exit_codes _).2 rfl rfl rfl (by decide)

/-- Claim C8, counterexample: `cleanup_output_dir` only unlinks
entries for which `item.is_file()` holds, so a subdirectory — whose
name is not in the 4-name allowlist — survives the pruning.  This
refutes the claim that after pruning the directory contains only
entries from the allowlist. -/
theorem claim8_subdir_survives :
    cleanup_output_dir
        [{ name := "scratch_dir", file := false }, { name := "junk.log", file := true }]
      = [{ name := "scratch_dir", file := false }] ∧
    ¬ "scratch_dir" ∈ keep_files := by
  refine ⟨rfl, ?_⟩
  decide

/-- Claim C8, amended: after pruning, an entry remains in the output
directory iff it was there before and is either not a regular file or
has a name in the fixed 4-name allowlist; equivalently, every regular
file outside the allowlist is deleted, and allowlisted files and
non-file entries are kept. -/
theorem claim8_cleanup_characterization (entries : List DirEntry) (e : DirEntry) :
    e ∈ cleanup_output_dir entries ↔
      e ∈ entries ∧ (e.file = false ∨ e.name ∈ keep_files) := by
  unfold cleanup_output_dir
  rw [List.mem_filter]
  cases hf : e.file <;> simp [hf, List.elem_iff]

/-! ## Claim theorems: ranking (Result Aggregator) -/

/-- Stability of one ordered insertion, expressed through filtering at
a fixed key: inserting `x` puts it in front of every element with the
same energy already in the list (those can only sit at or after the
insertion point). -/
theorem filter_orderedInsert_energy (x : DockingResult) (q : ℚ)
    (l : List DockingResult) :
    (List.orderedInsert energyLE x l).filter (fun r => decide (r.energy = q)) =
      if x.energy = q then
        x :: l.filter (fun r => decide (r.energy = q))
      else l.filter (fun r => decide (r.energy = q)) := by
  induction l with
  | nil =>
      by_cases hx : x.energy = q <;>
        simp [List.orderedInsert, List.filter_cons, hx]
  | cons y t ih =>
      by_cases hxy : energyLE x y
      · rw [List.orderedInsert_of_le energyLE t hxy]
        by_cases hx : x.energy = q <;> simp [List.filter_cons, hx]
      · have hxy' : ¬ x.energy ≤ y.energy := hxy
        have hlt : y.energy < x.energy := lt_of_not_le hxy'
        have step : List.orderedInsert energyLE x (y :: t)
            = y :: List.orderedInsert energyLE x t := by
          simp only [List.orderedInsert, if_neg hxy]
        rw [step, List.filter_cons]
        rcases eq_or_ne x.energy q with hx | hx
        · have hy : y.energy ≠ q := hx ▸ ne_of_lt hlt
          rw [ih]
          simp [List.filter_cons, hx, hy]
        · rw [ih]
          simp [List.filter_cons, hx]

/-- Stability of the whole sort: filtering the sorted list at any
fixed energy value yields the same subsequence, in the same order, as
filtering the input — equal-energy elements keep their original
relative order. -/
theorem filter_sortByEnergy (l : List DockingResult) (q : ℚ) :
    (sortByEnergy l).filter (fun r => decide (r.energy = q)) =
      l.filter (fun r => decide (r.energy = q)) := by
  induction l with
  | nil => rfl
  | cons x t ih =>
      show (List.orderedInsert energyLE x (sortByEnergy t)).filter _ = _
      rw [filter_orderedInsert_energy]
      by_cases hx : x.energy = q <;> simp [List.filter_cons, hx, ih]

/-- The sorted list is a permutation of the input (so lengths agree). -/
theorem sortByEnergy_length (l : List DockingResult) :
    (sortByEnergy l).length = l.length :=
  (List.perm_insertionSort energyLE l).length_eq

/-- Row emission: `csvRows` emits one row per result. -/
theorem csvRows_length (l : List DockingResult) :
    ∀ n, (csvRows n l).length = l.length := by
  induction l with
  | nil => intro n; rfl
  | cons r t ih => intro n; simp [csvRows, ih]

/-- The row at 0-based index `i` of `csvRows n l` is the row for
`l[i]` with rank `n + i`. -/
theorem csvRows_getElem? (l : List DockingResult) :
    ∀ n i, (csvRows n l)[i]? = (l[i]?).map (fun r => csvRow (n + i) r) := by
  induction l with
  | nil => intro n i; simp [csvRows]
  | cons r t ih =>
      intro n i
      cases i with
      | zero => simp [csvRows]
      | succ j =>
          have harith : n + 1 + j = n + (j + 1) := by omega
          simp [csvRows, ih (n + 1) j, harith]

/-- Claim C5: the ranked table consists exactly of the successful
outcomes, stably sorted ascending by primary energy (lower ranks
first): it has one row per success; the underlying order is sorted by
`energyLE`; equal-energy successes keep their original arrival order;
the row at 0-based index `i` carries 1-based rank `i + 1` and the six
energy fields of the `i`-th sorted success formatted by `format3`,
which always renders exactly three digits after the decimal point. -/
theorem claim5_ranked_table (results : List DockingResult) :
    write_summary_csv_rows results
        = csvRows 1 (sortByEnergy (successResults results)) ∧
    (write_summary_csv_rows results).length = (successResults results).length ∧
    List.Sorted energyLE (sortByEnergy (successResults results)) ∧
    (∀ q : ℚ,
      (sortByEnergy (successResults results)).filter
          (fun r => decide (r.energy = q))
        = (successResults results).filter (fun r => decide (r.energy = q))) ∧
    (∀ i r, (sortByEnergy (successResults results))[i]? = some r →
      (write_summary_csv_rows results)[i]? = some (csvRow (i + 1) r)) ∧
    (∀ q : ℚ, ∃ ip fp, format3 q = ip ++ "." ++ fp ∧ fp.length = 3) := by
  refine ⟨rfl, ?_, ?_, ?_, ?_, ?_⟩
  · rw [write_summary_csv_rows, csvRows_length, sortByEnergy_length]
  · exact List.sorted_insertionSort energyLE _
  · intro q; exact filter_sortByEnergy _ q
  · intro i r hr
    rw [write_summary_csv_rows, csvRows_getElem?, hr]
    simp [Nat.add_comm]
  · intro q
    refine ⟨(if roundHalfEven (q * 1000) < 0 then "-" else "")
        ++ toString ((roundHalfEven (q * 1000)).natAbs / 1000),
      pad3 ((roundHalfEven (q * 1000)).natAbs % 1000), ?_, rfl⟩
    unfold format3
    rfl

/-- Claim C5, witness: with primary scores `-5` and `-9`, the unit
scoring `-9` takes rank 1 (the spec's ranking scenario). -/
theorem claim5_ranked_table_witness :
    (write_summary_csv_rows
        [{ mol_name := "molA", energy := -5, atdk_e := 0, int_e := 0,
           ds_e := 0, hm_e := 0, plp := 0, success := true, mol2_content := "" },
         { mol_name := "molB", energy := -9, atdk_e := 0, int_e := 0,
           ds_e := 0, hm_e := 0, plp := 0, success := true, mol2_content := "" }])[0]?
      = some (csvRow 1
          { mol_name := "molB", energy := -9, atdk_e := 0, int_e := 0,
            ds_e := 0, hm_e := 0, plp := 0, success := true, mol2_content := "" }) := by
  have h := (claim5_ranked_table
      [{ mol_name := "molA", energy := -5, atdk_e := 0, int_e := 0,
         ds_e := 0, hm_e := 0, plp := 0, success := true, mol2_content := "" },
       { mol_name := "molB", energy := -9, atdk_e := 0, int_e := 0,
         ds_e := 0, hm_e := 0, plp := 0, success := true, mol2_content := "" }]).2.2.2.2.1
      0
      { mol_name := "molB", energy := -9, atdk_e := 0, int_e := 0,
        ds_e := 0, hm_e := 0, plp := 0, success := true, mol2_content := "" }
      (by decide)
  exact h

/-! ## Claim theorems: consolidated best-pose file -/

/-- If the pose file contains no start-of-record marker, the
collection loop of `read_first_mol2_entry` never starts and collects
nothing. -/
theorem readFirstGo_no_marker (lines : List String)
    (h : ∀ l ∈ lines, isMarker l = false) :
    readFirstGo false lines = [] := by
  induction lines with
  | nil => rfl
  | cons l t ih =>
      have hl : isMarker l = false := h l (List.mem_cons_self ..)
      simp only [readFirstGo, hl]
      exact ih (fun x hx => h x (List.mem_cons_of_mem _ hx))

/-- Successes split between those with an empty best-pose blob and
those with a non-empty one. -/
theorem success_filter_split (results : List DockingResult) :
    (results.filter (fun r => r.success && r.mol2_content != "")).length
      + (results.filter (fun r => r.success && r.mol2_content == "")).length
    = (successResults results).length := by
  induction results with
  | nil => rfl
  | cons r t ih =>
      simp only [successResults] at ih ⊢
      cases hs : r.success <;> cases hc : r.mol2_content == "" <;>
        simp [List.filter_cons, hs, hc, bne] at ih ⊢ <;> omega

/-- Every block written to the consolidated mol2 file ends with a
newline: a terminating newline is appended exactly when the blob lacks
one. -/
theorem mol2Piece_ends_nl (c : String) : pyEndsWithNl (mol2Piece c) = true := by
  by_cases h : pyEndsWithNl c = true
  · simp [mol2Piece, h]
  · have hb : pyEndsWithNl c = false := by
      cases hc : pyEndsWithNl c
      · rfl
      · exact absurd hc h
    have hdata : (c ++ "\n").data = c.data ++ ['\n'] := by
      rw [String.data_append]
    simp only [mol2Piece, hb, Bool.false_eq_true, if_false]
    unfold pyEndsWithNl
    rw [hdata, List.getLast?_concat]
    rfl

/-- Claim C10: a successful outcome whose pose file has no
start-of-record marker gets an empty best-pose blob
(`read_first_mol2_entry` returns `""`); the consolidated mol2 file
holds one block per success with a *non-empty* blob while the ranked
table holds one row per success, so the mol2 file falls short of the
table by exactly the number of successes with empty blobs; and every
block that is written ends with a newline (one is appended iff the
blob lacks it). -/
theorem claim10_empty_pose_blob (results : List DockingResult) :
    (∀ lines, (∀ l ∈ lines, isMarker l = false) →
      read_first_mol2_entry lines = "") ∧
    (summaryMol2Pieces results).length
        + (results.filter (fun r => r.success && r.mol2_content == "")).length
      = (write_summary_csv_rows results).length ∧
    (∀ p ∈ summaryMol2Pieces results, pyEndsWithNl p = true) := by
  refine ⟨?_, ?_, ?_⟩
  · intro lines h
    unfold read_first_mol2_entry
    rw [readFirstGo_no_marker lines h]
    rfl
  · rw [write_summary_csv_rows, csvRows_length, sortByEnergy_length]
    rw [summaryMol2Pieces, List.length_map, summaryMol2Entries,
      sortByEnergy_length]
    exact success_filter_split results
  · intro p hp
    rw [summaryMol2Pieces, List.mem_map] at hp
    obtain ⟨r, _, hr⟩ := hp
    rw [← hr]
    exact mol2Piece_ends_nl r.mol2_content

/-- Claim C10, witness: a marker-free pose file yields the empty blob,
and the block written for the blob `"Y"` (no trailing newline) is
newline-terminated. -/
theorem claim10_empty_pose_blob_witness :
    read_first_mol2_entry ["ATOM 1\n", "ATOM 2\n"] = "" ∧
    pyEndsWithNl "Y\n" = true := by
  have h := claim10_empty_pose_blob
    [{ mol_name := "a", energy := -5, atdk_e := 0, int_e := 0,
       ds_e := 0, hm_e := 0, plp := 0, success := true, mol2_content := "" },
     { mol_name := "b", energy := -9, atdk_e := 0, int_e := 0,
       ds_e := 0, hm_e := 0, plp := 0, success := true, mol2_content := "Y" }]
  exact ⟨h.1 ["ATOM 1\n", "ATOM 2\n"] (by decide), h.2.2 "Y\n" (by decide)⟩

/-! ## Claim theorems: Record Splitter -/

/-- The derived record name is never the empty string (an empty
sanitized name is replaced by `mol_<ordinal>`), so the save guard
`if current_mol_lines and current_mol_name` never drops a record whose
name line was seen. -/
theorem recDerivedName_ne_empty (k : Nat) (line : String) :
    recDerivedName k line ≠ "" := by
  simp only [recDerivedName]
  split
  · intro h
    have hd := congrArg String.data h
    rw [String.data_append] at hd
    have h1 : ("mol_".data : List Char) = [] := (List.append_eq_nil.mp hd).1
    exact absurd h1 (by decide)
  · next hcond =>
      intro h
      apply hcond
      rw [List.isEmpty_iff]
      exact congrArg String.data h

/-- Feeding non-marker lines to the split loop while a record with at
least two lines is open just appends them to the open record. -/
theorem foldl_splitStep_nonmarkers (ls : List String) :
    ∀ st : SplitState, (∀ l ∈ ls, isMarker l = false) → 2 ≤ st.cur.length →
    List.foldl splitStep st ls = { st with cur := st.cur ++ ls } := by
  induction ls with
  | nil => intro st _ _; simp
  | cons l t ih =>
      intro st hnm hlen
      have hl : isMarker l = false := hnm l (List.mem_cons_self ..)
      have hne : st.cur.isEmpty = false := by
        cases h : st.cur with
        | nil => rw [h] at hlen; simp at hlen
        | cons a b => rfl
      have hlen2 : ¬ (st.cur ++ [l]).length = 2 := by
        rw [List.length_append]
        simp
        omega
      have step : splitStep st l = { st with cur := st.cur ++ [l] } := by
        unfold splitStep
        rw [hl, hne]
        simp only [Bool.false_eq_true, if_false, Bool.not_false, if_true,
          if_neg hlen2]
      rw [List.foldl_cons, step,
        ih { st with cur := st.cur ++ [l] }
          (fun x hx => hnm x (List.mem_cons_of_mem _ hx))
          (by rw [List.length_append]; omega)]
      simp

/-- Processing a sequence of well-formed records: the pending record
in `st` is flushed at the first marker, and each record becomes one
unit, named with its 1-based ordinal. -/
theorem splitStep_processes_records (recs : List (List String)) :
    ∀ st : SplitState, (∀ r ∈ recs, wfRecord r) →
    flushCurrent (List.foldl splitStep st recs.flatten) =
      flushCurrent st ++ unitsFrom st.count recs := by
  induction recs with
  | nil => intro st _; simp [unitsFrom]
  | cons r rs ih =>
      intro st hwf
      obtain ⟨m, nm, rest, hr, hm, hnm, hrest⟩ := hwf r (List.mem_cons_self ..)
      subst hr
      rw [List.flatten_cons, List.foldl_append]
      have s1 : splitStep st m
          = (⟨flushCurrent st, [m], none, st.count + 1⟩ : SplitState) := by
        unfold splitStep
        simp [hm]
      have s2 : splitStep (⟨flushCurrent st, [m], none, st.count + 1⟩ : SplitState) nm
          = ⟨flushCurrent st, [m, nm],
              some (recDerivedName (st.count + 1) nm), st.count + 1⟩ := by
        unfold splitStep
        simp [hnm]
      have s3 : List.foldl splitStep
            (⟨flushCurrent st, [m, nm],
              some (recDerivedName (st.count + 1) nm), st.count + 1⟩ : SplitState) rest
          = ⟨flushCurrent st, m :: nm :: rest,
              some (recDerivedName (st.count + 1) nm), st.count + 1⟩ := by
        rw [foldl_splitStep_nonmarkers rest _ hrest (by simp)]
        rfl
      have hrun : List.foldl splitStep st (m :: nm :: rest)
          = ⟨flushCurrent st, m :: nm :: rest,
              some (recDerivedName (st.count + 1) nm), st.count + 1⟩ := by
        rw [List.foldl_cons, s1, List.foldl_cons, s2, s3]
      rw [hrun, ih _ (fun x hx => hwf x (List.mem_cons_of_mem _ hx))]
      have hnem : recDerivedName (st.count + 1) nm ≠ "" :=
        recDerivedName_ne_empty _ _
      simp [flushCurrent, unitsFrom, recName1, hnem]

/-- Listing `unitsFrom` yields one unit per record. -/
theorem unitsFrom_length (recs : List (List String)) :
    ∀ k, (unitsFrom k recs).length = recs.length := by
  induction recs with
  | nil => intro k; rfl
  | cons r t ih => intro k; simp [unitsFrom, ih]

/-- The `i`-th unit of `unitsFrom k recs` is the `i`-th record,
verbatim, under its derived name. -/
theorem unitsFrom_getElem? (recs : List (List String)) :
    ∀ k i, (unitsFrom k recs)[i]?
      = (recs[i]?).map (fun r => (recName1 r (k + i + 1), r)) := by
  induction recs with
  | nil => intro k i; simp [unitsFrom]
  | cons r t ih =>
      intro k i
      cases i with
      | zero => simp [unitsFrom]
      | succ j =>
          have harith : k + 1 + j + 1 = k + (j + 1) + 1 := by omega
          simp [unitsFrom, ih (k + 1) j, harith]

/-- With pairwise-distinct names, `find?` locates the unique write
for a name. -/
theorem find?_name_nodup (w : List (String × List String)) (n : String)
    (c : List String) (hnd : (w.map Prod.fst).Nodup) (hmem : (n, c) ∈ w) :
    w.find? (fun p => p.1 == n) = some (n, c) := by
  induction w with
  | nil => cases hmem
  | cons p t ih =>
      simp only [List.map_cons, List.nodup_cons] at hnd
      obtain ⟨hp1, hnd2⟩ := hnd
      rcases List.mem_cons.mp hmem with h | h
      · rw [← h]
        rw [List.find?_cons_of_pos _ (by simp)]
      · have hp : ¬ (p.1 == n) = true := by
          intro hb
          have hmap : n ∈ t.map Prod.fst := List.mem_map.mpr ⟨(n, c), h, rfl⟩
          rw [← eq_of_beq hb] at hmap
          exact hp1 hmap
        rw [@List.find?_cons_of_neg _ (fun q => q.1 == n) p t hp]
        exact ih hnd2 h

/-- Last-write-wins lookup under distinct names recovers each written
content. -/
theorem fsAfter_nodup (w : List (String × List String))
    (hnd : (w.map Prod.fst).Nodup) (n : String) (c : List String)
    (hmem : (n, c) ∈ w) : fsAfter w n = some c := by
  have h1 : (w.reverse.map Prod.fst).Nodup := by
    rw [List.map_reverse]
    exact List.nodup_reverse.mpr hnd
  unfold fsAfter
  rw [find?_name_nodup w.reverse n c h1 (List.mem_reverse.mpr hmem)]
  rfl

/-- Claim C6: for a container made of `K` well-formed records, the
Splitter produces exactly `K` units; the `i`-th unit carries the
`i`-th record verbatim (marker line included, up to the next marker)
under its derived name; and — when the derived names are pairwise
distinct — the file written for each unit holds exactly that record's
lines. -/
theorem claim6_splitter_units (recs : List (List String))
    (hwf : ∀ r ∈ recs, wfRecord r) :
    split_mol2_file recs.flatten = unitsFrom 0 recs ∧
    (split_mol2_file recs.flatten).length = recs.length ∧
    (∀ i r, recs[i]? = some r →
      (split_mol2_file recs.flatten)[i]? = some (recName1 r (i + 1), r)) ∧
    (((split_mol2_file recs.flatten).map Prod.fst).Nodup →
      ∀ n c, (n, c) ∈ split_mol2_file recs.flatten →
        fsAfter (split_mol2_file recs.flatten) n = some c) := by
  have hmain : split_mol2_file recs.flatten = unitsFrom 0 recs := by
    unfold split_mol2_file
    rw [splitStep_processes_records recs ⟨[], [], none, 0⟩ hwf]
    rfl
  refine ⟨hmain, ?_, ?_, ?_⟩
  · rw [hmain, unitsFrom_length]
  · intro i r hr
    rw [hmain, unitsFrom_getElem? recs 0 i, hr]
    simp
  · intro hnd n c hmem
    exact fsAfter_nodup _ hnd n c hmem

/-- Claim C6, witness: a two-record container splits into the two
records verbatim. -/
theorem claim6_splitter_units_witness :
    split_mol2_file
        ["@<TRIPOS>MOLECULE\n", "a\n", "x\n", "@<TRIPOS>MOLECULE\n", "b\n"]
      = unitsFrom 0
          [["@<TRIPOS>MOLECULE\n", "a\n", "x\n"], ["@<TRIPOS>MOLECULE\n", "b\n"]] := by
  have h := (claim6_splitter_units
      [["@<TRIPOS>MOLECULE\n", "a\n", "x\n"], ["@<TRIPOS>MOLECULE\n", "b\n"]]
      (by
        intro r hr
        simp only [List.mem_cons, List.not_mem_nil, or_false] at hr
        rcases hr with h1 | h1 <;> subst h1
        · exact ⟨_, _, _, rfl, by decide, by decide, by decide⟩
        · exact ⟨_, _, _, rfl, by decide, by decide, by decide⟩)).1
  exact h

/-- Claim C9: the Splitter is deterministic in its write list (same
input, same `(name, record)` listing), and running it twice in a row
against the same directory leaves every file byte-identical to a
single run: with last-write-wins overwriting, the second run's writes
shadow the first's with the same content. -/
theorem claim9_splitter_idempotent (lines : List String) :
    split_mol2_file lines = split_mol2_file lines ∧
    ∀ n, fsAfter (split_mol2_file lines ++ split_mol2_file lines) n
        = fsAfter (split_mol2_file lines) n := by
  refine ⟨rfl, fun n => ?_⟩
  unfold fsAfter
  rw [List.reverse_append, List.find?_append]
  cases h : List.find? (fun w => w.1 == n) (split_mol2_file lines).reverse <;>
    simp [h]

end BatchDocking
